import Mathlib

/-!
Verification of the GPU-Saturation-Scorer ("AGI") profiling pipeline.

The development shallowly embeds the Python sources:
* `src/AGI/export/export.py` — offline merge of per-rank records into the
  three tables `data` (raw samples), `process_metadata`, `job_metadata`;
* `src/AGI/profile/gpu_metrics_profiler.py` — the sampling loop
  (`GPUMetricsProfiler.run`) and series truncation (`truncate_data`);
* `src/AGI/io/json_io.py` — per-rank JSON record dump/load;
* `src/AGI/io/MetricsDataIO.py` — the shared-store coordination check
  (`checkOutfileExists`).

Python dicts are modelled as insertion-ordered association lists, Python
floats as `ℚ`, and fallible code returns `Except String`.
-/

/-- Decidable equality for `Except`, used to evaluate the embedded fallible
functions on concrete inputs. -/
instance {ε α : Type} [DecidableEq ε] [DecidableEq α] : DecidableEq (Except ε α)
  | .error a, .error b =>
    if h : a = b then .isTrue (by rw [h]) else .isFalse (by intro hc; cases hc; exact h rfl)
  | .error _, .ok _ => .isFalse (by intro h; cases h)
  | .ok _, .error _ => .isFalse (by intro h; cases h)
  | .ok a, .ok b =>
    if h : a = b then .isTrue (by rw [h]) else .isFalse (by intro hc; cases hc; exact h rfl)

namespace AGI

/-- One per-device series map: ordered mapping from metric name to the list of
collected samples (`self.data[gpu_id]` in the profiler). -/
abbrev DeviceSeries := List (String × List ℚ)

/-- The profiler's `self.data`: ordered mapping from GPU id to its per-metric
series (`map<DeviceId, map<MetricName, samples>>`). GPU ids are Python ints. -/
abbrev DataMap := List (ℤ × DeviceSeries)

/-- `CaptureMetadata`: the metadata dict assembled at the end of
`GPUMetricsProfiler.run` (gpu_metrics_profiler.py lines 120-133). -/
structure CaptureMetadata where
  job_id : ℤ
  label : String
  hostname : String
  proc_id : ℤ
  n_gpus : ℕ
  gpu_ids : List ℤ
  start_time : ℚ
  end_time : ℚ
  elapsed : ℚ
  sampling_time : ℚ
  n_samples : ℕ
  cmd : String
deriving DecidableEq, Repr

/-- A per-rank record: the (metadata, data) pair exchanged between the
profiler and the export step. -/
abbrev PerRankRecord := CaptureMetadata × DataMap

/-- The key set of the metadata dict. Because `CaptureMetadata` is a fixed
structure, every record's metadata has exactly these keys. -/
def metadataKeys : List String :=
  ["job_id", "label", "hostname", "proc_id", "n_gpus", "gpu_ids",
   "start_time", "end_time", "elapsed", "sampling_time", "n_samples", "cmd"]

/-- `d[0].keys()` for a record `d = (metadata, data)`: the metadata dict's
keys. This is what the assert in `create_data_table` actually inspects. -/
def pyMetadataKeys (_ : CaptureMetadata) : List String := metadataKeys

/-- The assert at export.py line 69:
`all(d[0].keys() == raw_data[0][0].keys() for d in raw_data)`.
`d[0]` is the metadata dict of each record, so the compared key sets are the
(fixed) metadata keys, not the metric names of the sample series.
For an empty list the Python generator is empty and `all` returns True
without ever evaluating `raw_data[0]`. -/
def sameMetadataKeys : List PerRankRecord → Bool
  | [] => true
  | r0 :: rest => (r0 :: rest).all (fun r => pyMetadataKeys r.1 == pyMetadataKeys r0.1)

/-- One row of the `data` (raw samples) table: the metric columns of the
pandas DataFrame plus the four tag columns set in `create_data_table`. -/
structure SampleRow where
  metrics : List (String × ℚ)
  job_id : ℤ
  proc_id : ℤ
  gpu_id : ℤ
  sample_index : ℕ
deriving DecidableEq, Repr

/-- `pd.DataFrame(metrics)` succeeds only if all metric series have the same
length (otherwise pandas raises ValueError). -/
def seriesLengthsEqual : DeviceSeries → Bool
  | [] => true
  | (_, s) :: rest => rest.all (fun p => p.2.length == s.length)

/-- Number of rows of `pd.DataFrame(metrics)`: the common series length
(0 for an empty dict). -/
def dfLen : DeviceSeries → ℕ
  | [] => 0
  | (_, s) :: _ => s.length

/-- The rows of the tagged DataFrame built for one device inside
`create_data_table`: row `i` holds each metric's `i`-th sample plus
`job_id`, `proc_id`, `gpu_id` and `sample_index = i`. -/
def mkRows (md : CaptureMetadata) (g : ℤ) (ms : DeviceSeries) : List SampleRow :=
  (List.range (dfLen ms)).map (fun i =>
    { metrics := ms.map (fun p => (p.1, p.2.getD i 0)),
      job_id := md.job_id, proc_id := md.proc_id, gpu_id := g, sample_index := i })

/-- Building the DataFrame for one device: fails like pandas if the metric
series have unequal lengths. -/
def buildDeviceDF (md : CaptureMetadata) (g : ℤ) (ms : DeviceSeries) :
    Except String (List SampleRow) :=
  if seriesLengthsEqual ms then .ok (mkRows md g ms)
  else .error "ValueError: All arrays must be of the same length"

/-- The column list of the tagged per-device DataFrame: the device's metric
names (dict order) followed by the four tag columns set in
`create_data_table`. -/
def dfCols (ms : DeviceSeries) : List String :=
  ms.map Prod.fst ++ ["job_id", "proc_id", "gpu_id", "sample_index"]

/-- The inner loop of `create_data_table` over one record's devices
(export.py lines 75-80): each iteration rebinds the Python variable `df`;
only the binding (columns and rows) left by the last device survives the
loop. `carry` is the value of `df` entering the record (it persists across
records). -/
def recordStep (md : CaptureMetadata) (devs : DataMap)
    (carry : Option (List String × List SampleRow)) :
    Except String (Option (List String × List SampleRow)) :=
  devs.foldlM (fun _acc p => do
    let rows ← buildDeviceDF md p.1 p.2
    pure (some (dfCols p.2, rows))) carry

/-- The outer loop of `create_data_table` (export.py lines 74-82): for each
record run the device loop, then execute `df.to_sql(..., if_exists="append")`
on whatever `df` currently denotes. Note the `to_sql` call sits outside the
device loop, and `df` leaks across records; if `df` was never bound Python
raises NameError.

`to_sql(if_exists="append")` semantics: the first call creates the `data`
table with that frame's columns (`tcols`); a later call INSERTs by the
frame's own column names, so it succeeds iff every frame column exists in
the table (table columns missing from the frame are filled with NULL,
modelled as absent from the row's metric list) and otherwise sqlite raises
OperationalError naming the first unknown column — after the earlier
appends have already landed. The result is the table's row content when the
function returns or raises, plus the raised error, if any. -/
def createDataTableGo :
    List PerRankRecord → Option (List String × List SampleRow) →
    Option (List String) → List SampleRow → List SampleRow × Option String
  | [], _, _, acc => (acc, none)
  | r :: rs, carry, tcols, acc =>
    match recordStep r.1 r.2 carry with
    | .error e => (acc, some e)
    | .ok none => (acc, some "NameError: name df is not defined")
    | .ok (some (cols, rows)) =>
      match tcols with
      | none => createDataTableGo rs (some (cols, rows)) (some cols) (acc ++ rows)
      | some tc =>
        match cols.find? (fun c => !tc.contains c) with
        | none => createDataTableGo rs (some (cols, rows)) (some tc) (acc ++ rows)
        | some c =>
          (acc, some ("sqlite3.OperationalError: table data has no column named " ++ c))

/-- `ExportDataHandler.create_data_table` (export.py lines 67-84): the
table's final row content plus the raised error, if any. -/
def create_data_table (records : List PerRankRecord) : List SampleRow × Option String :=
  if sameMetadataKeys records then createDataTableGo records none none []
  else ([], some "AssertionError: not all input files have the same metrics!")

/-- The rows `create_data_table` actually appends for one record: the rows
of its LAST device only (the `df` left behind by the device loop), or
nothing for a record with no devices. Used to state what the populated
`data` table contains. -/
def lastDeviceRows (r : PerRankRecord) : List SampleRow :=
  match r.2.getLast? with
  | none => []
  | some dv => mkRows r.1 dv.1 dv.2

/-- One row of the `process_metadata` table. -/
structure ProcessMetaRow where
  job_id : ℤ
  proc_id : ℤ
  hostname : String
  n_gpus : ℕ
  gpu_ids : String
  start_time : ℚ
  end_time : ℚ
  elapsed : ℚ
deriving DecidableEq, Repr

/-- `", ".join([str(gpu_id) for gpu_id in metadata["gpu_ids"]])`. -/
def gpuIdsJoin (l : List ℤ) : String := ", ".intercalate (l.map toString)

/-- `ExportDataHandler.create_process_metadata_table` (export.py lines 97-120):
one row per record, copied verbatim from its metadata. -/
def create_process_metadata_table (records : List PerRankRecord) : List ProcessMetaRow :=
  records.map (fun r =>
    { job_id := r.1.job_id, proc_id := r.1.proc_id, hostname := r.1.hostname,
      n_gpus := r.1.n_gpus, gpu_ids := gpuIdsJoin r.1.gpu_ids,
      start_time := r.1.start_time, end_time := r.1.end_time, elapsed := r.1.elapsed })

/-- One row of the `job_metadata` table. -/
structure JobMetaRow where
  job_id : ℤ
  label : String
  n_hosts : ℕ
  hostnames : String
  n_procs : ℕ
  n_gpus : ℕ
  avg_start_time : ℚ
  avg_end_time : ℚ
  avg_elapsed : ℚ
  metrics : String
  cmd : String
deriving DecidableEq, Repr

/-- `list(set(xs))` for a list of strings: the same elements with duplicates
removed. (CPython's set iteration order is hash-dependent; the model fixes a
deterministic order, which only matters for the textual `hostnames` join.) -/
def pySet (l : List String) : List String := l.dedup

/-- `np.median`: sort the values, take the middle one (odd length) or the mean
of the two middle ones (even length). `np.median([])` yields NaN, modelled
as 0 here (never reached on validated non-empty input). -/
def pyMedian (l : List ℚ) : ℚ :=
  let s := (l : Multiset ℚ).sort (· ≤ ·)
  if s.length = 0 then 0
  else if s.length % 2 = 1 then s.getD (s.length / 2) 0
  else (s.getD (s.length / 2 - 1) 0 + s.getD (s.length / 2) 0) / 2

/-- `ExportDataHandler.create_job_metadata_table` (export.py lines 139-162):
one row derived from all records; `job_id`, `label`, `metrics` and `cmd` are
read from the first record only. `data[0][1][0].keys()` looks up GPU id 0 in
the first record's data dict (KeyError if absent), and `data[0]` on an empty
list raises IndexError. -/
def create_job_metadata_table (records : List PerRankRecord) :
    Except String (List JobMetaRow) :=
  match records with
  | [] => .error "IndexError: list index out of range"
  | r0 :: _ =>
    match r0.2.lookup 0 with
    | none => .error "KeyError: 0"
    | some ms0 =>
      .ok [{ job_id := r0.1.job_id,
             label := r0.1.label,
             n_hosts := (pySet (records.map (fun r => r.1.hostname))).length,
             hostnames := ", ".intercalate (pySet (records.map (fun r => r.1.hostname))),
             n_procs := records.length,
             n_gpus := (records.map (fun r => r.1.n_gpus)).sum,
             avg_start_time := pyMedian (records.map (fun r => r.1.start_time)),
             avg_end_time := pyMedian (records.map (fun r => r.1.end_time)),
             avg_elapsed := pyMedian (records.map (fun r => r.1.elapsed)),
             metrics := ", ".intercalate (ms0.map Prod.fst),
             cmd := r0.1.cmd }]

/-- All columns of a `job_metadata` row except the textual `hostnames` join
(whose ordering is a set-iteration artifact), used to compare rows up to
host ordering. -/
def jobMetaNoHosts (row : JobMetaRow) :
    ℤ × String × ℕ × ℕ × ℕ × ℚ × ℚ × ℚ × String × String :=
  (row.job_id, row.label, row.n_hosts, row.n_procs, row.n_gpus,
   row.avg_start_time, row.avg_end_time, row.avg_elapsed, row.metrics, row.cmd)

/-- The three tables of the consolidated dataset. -/
structure Tables where
  samples : List SampleRow
  process_metadata : List ProcessMetaRow
  job_metadata : List JobMetaRow
deriving DecidableEq, Repr

/-- The assert at export.py line 171:
`all(d[0]["job_id"] == data[0][0]["job_id"] for d in data)`.
For an empty list the generator is empty and `all` is True. -/
def sameJobIds : List PerRankRecord → Bool
  | [] => true
  | r0 :: rest => (r0 :: rest).all (fun r => r.1.job_id == r0.1.job_id)

/-- `ExportDataHandler.export_db` (export.py lines 166-178): validate the job
ids, then create the `data`, `process_metadata` and `job_metadata` tables in
that order. A failed validation aborts before any table is built; an error
raised inside `create_data_table` aborts before the two metadata tables are
built (the partially appended `data` rows are reported by
`create_data_table` itself). -/
def export_db (records : List PerRankRecord) : Except String Tables :=
  if sameJobIds records then
    match create_data_table records with
    | (_, some e) => .error e
    | (samples, none) =>
      let pm := create_process_metadata_table records
      match create_job_metadata_table records with
      | .error e => .error e
      | .ok jm => .ok ⟨samples, pm, jm⟩
  else .error "AssertionError: not all input files have been generated by the same SLURM job!"

/-! ### Sampler (`GPUMetricsProfiler`, gpu_metrics_profiler.py) -/

/-- Insertion-ordered dict update: if key `k` is present apply `f` to its
value in place, otherwise append `(k, f d)` at the end (Python dicts keep
insertion order; `d` is the freshly created default value). -/
def updateA {κ ν : Type} [BEq κ] (k : κ) (f : ν → ν) (d : ν) :
    List (κ × ν) → List (κ × ν)
  | [] => [(k, f d)]
  | (k', v) :: rest => if k == k' then (k', f v) :: rest else (k', v) :: updateA k f d rest

/-- The per-metric part of the fuse step (gpu_metrics_profiler.py lines
87-93): for each polled metric, lazily create its series and append the new
sample. -/
def fuseDevice (dev : DeviceSeries) (ms : List (String × ℚ)) : DeviceSeries :=
  ms.foldl (fun acc p => updateA p.1 (fun s => s ++ [p.2]) [] acc) dev

/-- The fuse step of one polling iteration (gpu_metrics_profiler.py lines
81-93): for every device id present in the poll result, lazily create the
per-device map and append each metric's sample. -/
def fuseData (data : DataMap) (samples : List (ℤ × List (String × ℚ))) : DataMap :=
  samples.foldl (fun acc p => updateA p.1 (fun dev => fuseDevice dev p.2) [] acc) data

/-- One observed iteration of the profiling loop: the value of
`time.time() - start_time` at the loop-condition check, the poll result
returned by `GetLatestGpuValuesAsFieldNameDict()`, and the result of
`process.poll()` after the sleep (`none` = child still running, `some c` =
child exited with code `c`). The pre-loop throw-away poll is not part of the
trace. -/
structure Tick where
  elapsed : ℚ
  samples : List (ℤ × List (String × ℚ))
  status : Option ℤ
deriving DecidableEq, Repr

/-- The loop condition `self.max_runtime <= 0 or time.time() - start_time < self.max_runtime`. -/
def loopCond (maxRuntime elapsed : ℚ) : Bool :=
  decide (maxRuntime ≤ 0) || decide (elapsed < maxRuntime)

/-- How the profiling loop ended. `raised`: a non-zero child exit was
observed and the exception propagates. `broke`: the child exited 0.
`condFail st`: the loop condition went false (timeout); `st` is what the
post-loop `process.poll()` then observes. `ranOut`: the observed trace ended
while the loop was still going (the run does not terminate within the
observations). -/
inductive LoopExit
  | raised
  | broke
  | condFail (st : Option ℤ)
  | ranOut
deriving DecidableEq, Repr

/-- The profiling loop of `GPUMetricsProfiler.run` (gpu_metrics_profiler.py
lines 74-104): while the condition holds, poll and fuse samples, sleep, then
check child liveness — a non-zero exit raises, a zero exit breaks. -/
def runLoop (maxRuntime : ℚ) : List Tick → DataMap → DataMap × LoopExit
  | [], d => (d, .ranOut)
  | t :: ts, d =>
    if loopCond maxRuntime t.elapsed then
      let d' := fuseData d t.samples
      match t.status with
      | some c => if c ≠ 0 then (d', .raised) else (d', .broke)
      | none => runLoop maxRuntime ts d'
    else (d, .condFail t.status)

/-- The lengths of every per-device per-metric series, flattened: the list
Python's `min(...)` ranges over in `truncate_data`. -/
def allSeriesLengths (d : DataMap) : List ℕ :=
  d.flatMap (fun g => g.2.map (fun m => m.2.length))

/-- Python's `lst[-n:]`: for `n = 0` the slice is `lst[0:]`, the whole list
(the negative-zero quirk); otherwise the last `n` elements. -/
def pySliceLast (n : ℕ) (s : List ℚ) : List ℚ :=
  if n = 0 then s else s.drop (s.length - n)

/-- `GPUMetricsProfiler.truncate_data` (gpu_metrics_profiler.py lines
138-148): take the smallest series length over every device and metric
(`min([])` raises ValueError), right-trim every series to its last `n`
entries, and return `n`. -/
def truncate_data (d : DataMap) : Except String (ℕ × DataMap) :=
  match (allSeriesLengths d).min? with
  | none => .error "ValueError: min() arg is an empty sequence"
  | some n =>
    .ok (n, d.map (fun g => (g.1, g.2.map (fun m => (m.1, pySliceLast n m.2)))))

/-- The SLURM topology fields the profiler reads from its `SlurmJob`. -/
structure SlurmJobInfo where
  job_id : ℤ
  label : String
  hostname : String
  proc_id : ℤ
  gpu_ids : List ℤ
deriving DecidableEq, Repr

/-- Outcome of `GPUMetricsProfiler.run`. `workloadFailure`: the in-loop
exception for a non-zero child exit propagated and nothing was dumped.
`truncError`: `truncate_data` raised on an empty data map and nothing was
dumped. `ok killed md data`: `self.io.dump(metadata, data)` was executed;
`killed` records whether the child was killed after a timeout (the printed
warning). `diverged`: the loop did not terminate within the observed trace. -/
inductive RunResult
  | workloadFailure
  | truncError
  | ok (killed : Bool) (md : CaptureMetadata) (data : DataMap)
  | diverged
deriving DecidableEq, Repr

/-- The post-loop tail of `run` (gpu_metrics_profiler.py lines 107-136):
possibly kill the child, truncate the data, assemble the metadata and dump
the record. -/
def runFinish (job : SlurmJobInfo) (samplingTime _maxRuntime startTime endTime : ℚ)
    (cmd : String) (killed : Bool) (d : DataMap) : RunResult :=
  match truncate_data d with
  | .error _ => .truncError
  | .ok (n, d') =>
    .ok killed
      { job_id := job.job_id, label := job.label, hostname := job.hostname,
        proc_id := job.proc_id, n_gpus := job.gpu_ids.length, gpu_ids := job.gpu_ids,
        start_time := startTime, end_time := endTime, elapsed := endTime - startTime,
        sampling_time := samplingTime, n_samples := n, cmd := cmd } d'

/-- `GPUMetricsProfiler.run` (gpu_metrics_profiler.py lines 60-136) over an
observed trace. After the loop, `process.poll() is None` decides the kill:
on the break path the child has already exited (code 0, no kill); on the
condition-failure path the post-loop poll observes the tick's `status`, and
only a still-running child (`none`) is killed — an already exited child's
code is not re-examined. -/
def run (job : SlurmJobInfo) (samplingTime maxRuntime startTime endTime : ℚ)
    (cmd : String) (trace : List Tick) : RunResult :=
  match runLoop maxRuntime trace [] with
  | (_, .raised) => .workloadFailure
  | (d, .broke) => runFinish job samplingTime maxRuntime startTime endTime cmd false d
  | (d, .condFail st) =>
    runFinish job samplingTime maxRuntime startTime endTime cmd st.isNone d
  | (_, .ranOut) => .diverged

/-! ### Per-rank JSON records (`JSONDataIO`, json_io.py) -/

/-- A parsed JSON document (the result of `json.load`): objects are
insertion-ordered maps with (post-parse) distinct field names. Python's
`json` keeps the int/float distinction: ints serialize without a decimal
point and parse back as ints. -/
inductive JVal
  | jnull
  | jbool (b : Bool)
  | jint (n : ℤ)
  | jfloat (q : ℚ)
  | jstr (s : String)
  | jarr (elems : List JVal)
  | jobj (fields : List (String × JVal))
deriving Repr

/-- A Python dict key as used by the repository's records: an int (GPU id)
or a string. -/
inductive PyKey
  | kint (n : ℤ)
  | kstr (s : String)
deriving DecidableEq, Repr

/-- The Python values that can make up a per-rank record
(metadata dict and data dict). -/
inductive PyVal
  | pnone
  | pbool (b : Bool)
  | pint (n : ℤ)
  | pfloat (q : ℚ)
  | pstr (s : String)
  | plist (xs : List PyVal)
  | pdict (entries : List (PyKey × PyVal))
deriving Repr

/-- `json.dump` key coercion: non-string dict keys are converted to their
string form (`str(int)`). -/
def dumpKey : PyKey → String
  | .kint n => toString n
  | .kstr s => s

mutual
/-- `json.dump` serialization of one Python value. -/
def dumpJson : PyVal → JVal
  | .pnone => .jnull
  | .pbool b => .jbool b
  | .pint n => .jint n
  | .pfloat q => .jfloat q
  | .pstr s => .jstr s
  | .plist xs => .jarr (dumpJsonList xs)
  | .pdict es => .jobj (dumpJsonEntries es)

def dumpJsonList : List PyVal → List JVal
  | [] => []
  | x :: xs => dumpJson x :: dumpJsonList xs

def dumpJsonEntries : List (PyKey × PyVal) → List (String × JVal)
  | [] => []
  | (k, v) :: es => (dumpKey k, dumpJson v) :: dumpJsonEntries es
end

/-- Python dict insertion: an existing key keeps its position and gets the
new value; a new key is appended. -/
def pyDictInsert (k : PyKey) (v : PyVal) : List (PyKey × PyVal) → List (PyKey × PyVal)
  | [] => [(k, v)]
  | (k', v') :: rest =>
    if k == k' then (k', v) :: rest else (k', v') :: pyDictInsert k v rest

/-- Building a Python dict from a sequence of key/value pairs: later
duplicate keys overwrite earlier values (keeping the first position), as
`json.load` does for repeated JSON object names. -/
def pyDictOfList (entries : List (PyKey × PyVal)) : List (PyKey × PyVal) :=
  entries.foldl (fun acc p => pyDictInsert p.1 p.2 acc) []

mutual
/-- `json.load` deserialization: JSON object keys come back as strings, and
repeated names collapse into one dict entry (last value wins). -/
def loadJson : JVal → PyVal
  | .jnull => .pnone
  | .jbool b => .pbool b
  | .jint n => .pint n
  | .jfloat q => .pfloat q
  | .jstr s => .pstr s
  | .jarr xs => .plist (loadJsonList xs)
  | .jobj fs => .pdict (pyDictOfList (loadJsonFields fs))

def loadJsonList : List JVal → List PyVal
  | [] => []
  | x :: xs => loadJson x :: loadJsonList xs

def loadJsonFields : List (String × JVal) → List (PyKey × PyVal)
  | [] => []
  | (k, v) :: fs => (.kstr k, loadJson v) :: loadJsonFields fs
end

mutual
/-- What a dump/load round trip does to a Python value: every dict key is
replaced by its string form; everything else is unchanged. -/
def stringifyKeys : PyVal → PyVal
  | .pnone => .pnone
  | .pbool b => .pbool b
  | .pint n => .pint n
  | .pfloat q => .pfloat q
  | .pstr s => .pstr s
  | .plist xs => .plist (stringifyKeysList xs)
  | .pdict es => .pdict (stringifyKeysEntries es)

def stringifyKeysList : List PyVal → List PyVal
  | [] => []
  | x :: xs => stringifyKeys x :: stringifyKeysList xs

def stringifyKeysEntries : List (PyKey × PyVal) → List (PyKey × PyVal)
  | [] => []
  | (k, v) :: es => (.kstr (dumpKey k), stringifyKeys v) :: stringifyKeysEntries es
end

mutual
/-- No dict anywhere in the value has two keys with the same string form
(so `json.dump` writes no duplicate object names and `json.load` collapses
nothing). All records actually produced by the profiler satisfy this: GPU
ids are distinct ints and metadata keys are distinct strings. -/
def distinctStrKeys : PyVal → Bool
  | .pnone => true
  | .pbool _ => true
  | .pint _ => true
  | .pfloat _ => true
  | .pstr _ => true
  | .plist xs => distinctStrKeysList xs
  | .pdict es => decide (es.map (fun p => dumpKey p.1)).Nodup && distinctStrKeysEntries es

def distinctStrKeysList : List PyVal → Bool
  | [] => true
  | x :: xs => distinctStrKeys x && distinctStrKeysList xs

def distinctStrKeysEntries : List (PyKey × PyVal) → Bool
  | [] => true
  | (_, v) :: es => distinctStrKeys v && distinctStrKeysEntries es
end

mutual
/-- All dict keys are already strings (so a round trip alters nothing). -/
def strKeyed : PyVal → Bool
  | .pnone => true
  | .pbool _ => true
  | .pint _ => true
  | .pfloat _ => true
  | .pstr _ => true
  | .plist xs => strKeyedList xs
  | .pdict es => strKeyedEntries es

def strKeyedList : List PyVal → Bool
  | [] => true
  | x :: xs => strKeyed x && strKeyedList xs

def strKeyedEntries : List (PyKey × PyVal) → Bool
  | [] => true
  | (k, v) :: es => (match k with | .kstr _ => true | .kint _ => false)
      && strKeyed v && strKeyedEntries es
end

/-- `JSONDataIO.dump` (json_io.py lines 16-25): write
`{'metadata': metadata, 'data': data}` as one JSON document. -/
def dumpRecord (metadata data : PyVal) : JVal :=
  .jobj [("metadata", dumpJson metadata), ("data", dumpJson data)]

/-- `JSONDataIO.load` (json_io.py lines 28-38): parse the file with
`json.load`, then try to return `data['metadata'], data['data']`; a KeyError
(either top-level key missing from the parsed dict) is caught, a warning is
printed and `(None, None)` is returned (modelled as `Except.ok none`).
Subscripting a non-dict parse result raises an uncaught TypeError. -/
def loadRecord (j : JVal) : Except String (Option (PyVal × PyVal)) :=
  match loadJson j with
  | .pdict entries =>
    match entries.lookup (.kstr "metadata"), entries.lookup (.kstr "data") with
    | some m, some d => .ok (some (m, d))
    | _, _ => .ok none
  | _ => .error "TypeError: not subscriptable by string keys"

/-! ### Online shared-write coordination (`MetricsDataIO.checkOutfileExists`) -/

/-- The persisted coordination record (the pickled `self.metadata` dict of
`MetricsDataIO`): an optional error message under the key `dbError` and the
`dbExists` flag. -/
structure CoordMetadata where
  dbError : Option String
  dbExists : Bool
deriving DecidableEq, Repr

/-- Python truthiness of `self.metadata.get('dbError', False)`: a missing
key or an empty string is falsy. -/
def pyTruthyError : Option String → Bool
  | none => false
  | some s => s ≠ ""

/-- The mutating filesystem operations `checkOutfileExists` can perform
inside the critical section, in order. -/
inductive CoordAction
  | removeDbFile
  | dumpMeta (m : CoordMetadata)
deriving DecidableEq, Repr

/-- The persisted error message (MetricsDataIO.py line 106). -/
def alreadyExistsMsg (dbFile : String) : String :=
  "Output file " ++ dbFile ++ " already exists! Please specify a different output file or set -f flag."

/-- `MetricsDataIO.checkOutfileExists` (MetricsDataIO.py lines 84-121) as a
function of the coordination record loaded under the lock and whether the
shared store file exists on disk. The result is the ordered list of mutating
operations performed plus the raised exception, if any. -/
def checkOutfileExists (dbFile : String) (readOnly forceOverwrite : Bool)
    (meta : CoordMetadata) (dbFileOnDisk : Bool) :
    List CoordAction × Option String :=
  if readOnly then ([], none)
  else if pyTruthyError meta.dbError then ([], some (meta.dbError.getD ""))
  else if !meta.dbExists then
    if dbFileOnDisk then
      if !forceOverwrite then
        ([.dumpMeta { meta with dbError := some (alreadyExistsMsg dbFile) }],
         some (alreadyExistsMsg dbFile))
      else
        ([.removeDbFile, .dumpMeta { meta with dbExists := true }], none)
    else ([], none)
  else ([], none)

/-! ### Cleanser (outlier / warmup detection)

The implementation of `detectOutlierSamples` is not under `src/` — only its
call site `analyzer.detectOutlierSamples(self.args.detect_outliers)` in
`src/AGI.py` is. The definitions below are modelled from the spec, §4.5. -/

/-- Arithmetic mean of a list of utilization values (0 for an empty list). -/
def listMean (l : List ℚ) : ℚ := if l.length = 0 then 0 else l.sum / l.length

/-- Modelled from the spec: the utilization values of one of the two
clusters produced by the (abstracted) 2-means step — the values at indices
the assignment maps to side `b`. -/
def clusterVals (assign : ℕ → Bool) (b : Bool) (series : List ℚ) : List ℚ :=
  ((List.range series.length).zip series).filterMap
    (fun p => if assign p.1 == b then some p.2 else none)

/-- Modelled from the spec: one direction of the cleanser's detection
(spec §4.5, steps 2-4; the implementation of `detectOutlierSamples` is
missing from src/). The 2-means clustering over the `(log(i+1), util)`
features (steps 1-2) is abstracted as the assignment `assign : index → Bool`.
Compute each cluster's mean utilization; the cluster with the lower mean is
the candidate; return an all-false mask unless
`(highMean - lowMean) / highMean ≥ 0.15` (division cleared), else flag
exactly the candidate cluster's samples. -/
def detectDirection (assign : ℕ → Bool) (series : List ℚ) : List Bool :=
  if max (listMean (clusterVals assign true series)) (listMean (clusterVals assign false series)) -
       min (listMean (clusterVals assign true series)) (listMean (clusterVals assign false series)) <
     (3 / 20) *
       max (listMean (clusterVals assign true series)) (listMean (clusterVals assign false series))
  then List.replicate series.length false
  else
    (List.range series.length).map
      (fun i =>
        if listMean (clusterVals assign true series) ≤ listMean (clusterVals assign false series)
        then assign i else !assign i)

/-- The detection mode (`--detect-outliers` choices in src/AGI.py). -/
inductive DetectMode
  | leading
  | trailing
  | all
  | nodetect
deriving DecidableEq, Repr

/-- Modelled from the spec: `detect(series, mode)` (spec §4.5). `leading`
runs the detection directly; `trailing` runs the symmetric logic on the
reversed series; `all` ORs both masks; mode `none` flags nothing.
`assignL` / `assignT` are the clustering assignments used for the two
directions. -/
def detectOutlierSamples (mode : DetectMode) (assignL assignT : ℕ → Bool)
    (series : List ℚ) : List Bool :=
  match mode with
  | .leading => detectDirection assignL series
  | .trailing => (detectDirection assignT series.reverse).reverse
  | .all =>
    (detectDirection assignL series).zipWith (· || ·)
      ((detectDirection assignT series.reverse).reverse)
  | .nodetect => List.replicate series.length false

/-! ### Concrete inputs used to evaluate the embedded functions -/

/-- The set of metric names appearing in a record's sample series (the
quantity the spec's `SchemaMismatch` validation is about). -/
def metricNames (r : PerRankRecord) : List String :=
  r.2.flatMap (fun dv => dv.2.map Prod.fst)

/-- A well-formed capture metadata value used to build concrete records. -/
def mdBase : CaptureMetadata :=
  { job_id := 7, label := "L", hostname := "nid001", proc_id := 0, n_gpus := 1,
    gpu_ids := [0], start_time := 0, end_time := 2, elapsed := 2,
    sampling_time := 500, n_samples := 2, cmd := "sleep 1" }

/-- A record with two devices (GPU ids 0 and 1), one metric, two samples
each: the input exhibiting the lost-device bug of `create_data_table`. -/
def c1rec : PerRankRecord :=
  ({ mdBase with n_gpus := 2, gpu_ids := [0, 1] },
   [(0, [("m1", [1, 2])]), (1, [("m1", [3, 4])])])

def c2recA : PerRankRecord := (mdBase, [(0, [("m1", [1, 2])])])

def c2recB : PerRankRecord :=
  ({ mdBase with job_id := 8, proc_id := 1, hostname := "nid002" },
   [(0, [("m1", [3, 4])])])

def c3recA : PerRankRecord := (mdBase, [(0, [("m1", [1])])])

/-- Same job id as `c3recA` but a different metric name set. -/
def c3recB : PerRankRecord :=
  ({ mdBase with proc_id := 1, hostname := "nid002" }, [(0, [("m2", [2])])])

def c4trace : List Tick := [⟨0, [(0, [("util", 2)])], some 0⟩]

def c5recA : PerRankRecord := (mdBase, [(0, [("m1", [1])])])

/-- Same job id as `c5recA` but a different label: a pair the code's
validation accepts whose merge output depends on input order. -/
def c5recB : PerRankRecord :=
  ({ mdBase with proc_id := 1, hostname := "nid002", label := "M" },
   [(0, [("m1", [2])])])

def c5wA : PerRankRecord := (mdBase, [(0, [("m1", [1])])])

def c5wB : PerRankRecord :=
  ({ mdBase with proc_id := 1, hostname := "nid002" }, [(0, [("m1", [2])])])

def c6job : SlurmJobInfo :=
  { job_id := 7, label := "L", hostname := "nid001", proc_id := 0, gpu_ids := [0] }

/-- A trace in which the child's non-zero exit is first observed by the
post-loop poll, after `maxRuntime` has already elapsed. -/
def c6trace : List Tick :=
  [⟨0, [(0, [("util", 1)])], none⟩, ⟨2, [], some 1⟩]

/-- A timeout trace: the loop condition fails while the child is still
running. -/
def c6wtrace : List Tick :=
  [⟨0, [(0, [("util", 2)])], none⟩, ⟨5, [], none⟩]

def c7meta : CoordMetadata := { dbError := some "boom", dbExists := true }

def c8meta : PyVal := .pdict [(.kstr "job_id", .pint 7), (.kstr "label", .pstr "L")]

/-- A data map keyed by the int GPU id 0, as the profiler produces it. -/
def c8data : PyVal :=
  .pdict [(.kint 0, .pdict [(.kstr "m1", .plist [.pfloat 1, .pfloat 2])])]

/-- What the round trip actually returns for `c8data`: the GPU key has
become the string "0". -/
def c8dataLoaded : PyVal :=
  .pdict [(.kstr "0", .pdict [(.kstr "m1", .plist [.pfloat 1, .pfloat 2])])]

def c9series : List ℚ := [2/5, 2/5, 2/5]

def c10fields : List (String × JVal) := [("data", .jobj [])]

/-! ## Theorems -/

/-- The job-id assert of `export_db` succeeds exactly when all records carry
the same job id. -/
theorem sameJobIds_eq_true_iff (records : List PerRankRecord) :
    sameJobIds records = true ↔
      ∀ r ∈ records, ∀ r' ∈ records, r.1.job_id = r'.1.job_id := by
  cases records with
  | nil => simp [sameJobIds]
  | cons r0 rest =>
    simp only [sameJobIds, List.all_eq_true, beq_iff_eq]
    constructor
    · intro h r hr r' hr'
      rw [h r hr, h r' hr']
    · intro h r hr
      exact h r hr r0 (by simp)

/-- C2: if two records in a non-empty input list carry different job ids,
`export_db` fails on the job-id assert, which runs before any of the three
output tables is created, so the merge produces no (partial) output. -/
theorem C2_job_mismatch_fails_before_tables (records : List PerRankRecord)
    (r r' : PerRankRecord) (hr : r ∈ records) (hr' : r' ∈ records)
    (hne : r.1.job_id ≠ r'.1.job_id) :
    export_db records =
      .error "AssertionError: not all input files have been generated by the same SLURM job!" := by
  have h : sameJobIds records = false := by
    rw [← Bool.not_eq_true, sameJobIds_eq_true_iff]
    intro h
    exact hne (h r hr r' hr')
  simp [export_db, h]

/-- Witness for C2 at a concrete pair of records with job ids 7 and 8. -/
theorem C2_job_mismatch_fails_before_tables_witness :
    c2recA.1.job_id ≠ c2recB.1.job_id ∧
    export_db [c2recA, c2recB] =
      .error "AssertionError: not all input files have been generated by the same SLURM job!" :=
  ⟨by decide,
   C2_job_mismatch_fails_before_tables [c2recA, c2recB] c2recA c2recB
     (by simp) (by simp) (by decide)⟩

/-- C1 (code behavior at the failing input): for a single validated record
with two devices carrying 2 samples each, the raw-samples table receives
only the 2 rows of the last device (both tagged `gpu_id = 1`), not the
2 + 2 = 4 rows (one per device per sample index) the claim requires:
`df.to_sql` sits outside the per-device loop in `create_data_table`, so only
the last device's DataFrame is appended. -/
theorem C1_only_last_device_rows :
    (export_db [c1rec]).map (fun t => t.samples.length) = .ok 2 ∧
    ((c1rec.2.map (fun dv => dfLen dv.2)).sum = 4) ∧
    (export_db [c1rec]).map (fun t => t.samples.map (fun row => row.gpu_id)) = .ok [1, 1] :=
  ⟨by decide, by decide, by decide⟩

/-- C3 (code behavior at the failing input): two records with the same job
id but disjoint metric name sets pass the schema assert (which compares the
metadata dicts' key sets, not the metric names — those are always the fixed
metadata key set). No schema-mismatch failure is raised; instead the second
`to_sql` append crashes with a sqlite OperationalError (the `data` table,
created from record A's frame, has no column `m2`) — after the table has
already been populated with record A's row. The merge neither fails with the
claimed schema-mismatch error nor fails before the raw-samples table is
populated. -/
theorem C3_schema_mismatch_not_detected :
    metricNames c3recA ≠ metricNames c3recB ∧
    sameMetadataKeys [c3recA, c3recB] = true ∧
    create_data_table [c3recA, c3recB] =
      (lastDeviceRows c3recA,
       some "sqlite3.OperationalError: table data has no column named m2") ∧
    lastDeviceRows c3recA ≠ [] ∧
    export_db [c3recA, c3recB] =
      .error "sqlite3.OperationalError: table data has no column named m2" :=
  ⟨by decide, by decide, by decide, by decide, by decide⟩

/-- The keys of a deserialized field list are the stringified field names. -/
theorem loadJsonFields_keys (fs : List (String × JVal)) :
    (loadJsonFields fs).map Prod.fst = fs.map (fun p => PyKey.kstr p.1) := by
  induction fs with
  | nil => rfl
  | cons p fs ih => cases p; simp [loadJsonFields, ih]

/-- The key list after a Python dict insertion: unchanged if the key is
present, otherwise the key is appended. -/
theorem keys_pyDictInsert (k : PyKey) (v : PyVal) (l : List (PyKey × PyVal)) :
    (pyDictInsert k v l).map Prod.fst =
      if k ∈ l.map Prod.fst then l.map Prod.fst else l.map Prod.fst ++ [k] := by
  induction l with
  | nil => simp [pyDictInsert]
  | cons p l ih =>
    obtain ⟨k0, v0⟩ := p
    by_cases h : k = k0
    · have hb : (k == k0) = true := by simpa using h
      simp [pyDictInsert, hb, h]
    · have hb : (k == k0) = false := by simpa using h
      by_cases hm : k ∈ l.map Prod.fst <;>
        simp [pyDictInsert, hb, ih, hm, Ne.symm h, h]

/-- Key membership after a Python dict insertion. -/
theorem mem_keys_pyDictInsert (k k' : PyKey) (v : PyVal) (l : List (PyKey × PyVal)) :
    k' ∈ (pyDictInsert k v l).map Prod.fst ↔ k' = k ∨ k' ∈ l.map Prod.fst := by
  rw [keys_pyDictInsert]
  by_cases hm : k ∈ l.map Prod.fst
  · simp only [hm, if_true]
    constructor
    · intro h
      exact Or.inr h
    · rintro (h | h)
      · rw [h]
        exact hm
      · exact h
  · simp only [hm, if_false, List.mem_append, List.mem_singleton]
    tauto

/-- Building a Python dict preserves the key set. -/
theorem mem_keys_pyDictOfList_aux (es : List (PyKey × PyVal))
    (acc : List (PyKey × PyVal)) (k' : PyKey) :
    (k' ∈ (es.foldl (fun a p => pyDictInsert p.1 p.2 a) acc).map Prod.fst) ↔
      k' ∈ acc.map Prod.fst ∨ k' ∈ es.map Prod.fst := by
  induction es generalizing acc with
  | nil => simp
  | cons p es ih =>
    rw [List.foldl_cons, ih, mem_keys_pyDictInsert, List.map_cons, List.mem_cons]
    tauto

/-- Building a Python dict preserves the key set. -/
theorem mem_keys_pyDictOfList (es : List (PyKey × PyVal)) (k' : PyKey) :
    k' ∈ (pyDictOfList es).map Prod.fst ↔ k' ∈ es.map Prod.fst := by
  simpa [pyDictOfList] using mem_keys_pyDictOfList_aux es [] k'

/-- A field name absent from the JSON object is absent from the parsed
Python dict. -/
theorem lookup_loadJson_none (fields : List (String × JVal)) (s : String)
    (hs : fields.lookup s = none) :
    (pyDictOfList (loadJsonFields fields)).lookup (.kstr s) = none := by
  rw [List.lookup_eq_none_iff] at hs ⊢
  intro p hp
  have hk : p.1 ∈ (pyDictOfList (loadJsonFields fields)).map Prod.fst :=
    List.mem_map_of_mem _ hp
  rw [mem_keys_pyDictOfList, loadJsonFields_keys] at hk
  obtain ⟨q, hq, hqe⟩ := List.mem_map.mp hk
  have hne := hs q hq
  rw [← hqe]
  simp only [bne_iff_ne] at hne ⊢
  intro hc
  apply hne
  cases hc
  rfl

/-- C10: loading a per-rank JSON record whose top-level object parses fine
but lacks the 'metadata' or the 'data' key raises nothing: the KeyError is
caught, a warning is printed, and `(None, None)` is returned, so the
corrupted record is silently ignored by the reader. -/
theorem C10_missing_key_returns_none (fields : List (String × JVal))
    (h : fields.lookup "metadata" = none ∨ fields.lookup "data" = none) :
    loadRecord (.jobj fields) = .ok none := by
  have hred : loadRecord (.jobj fields) =
      (match (pyDictOfList (loadJsonFields fields)).lookup (.kstr "metadata"),
             (pyDictOfList (loadJsonFields fields)).lookup (.kstr "data") with
       | some m, some d => Except.ok (some (m, d))
       | _, _ => Except.ok none) := by
    rfl
  rw [hred]
  rcases h with h | h
  · rw [lookup_loadJson_none fields _ h]
  · rw [lookup_loadJson_none fields _ h]
    cases (pyDictOfList (loadJsonFields fields)).lookup (.kstr "metadata") <;> rfl

/-- Witness for C10 at a concrete record missing the 'metadata' key. -/
theorem C10_missing_key_returns_none_witness :
    c10fields.lookup "metadata" = none ∧ loadRecord (.jobj c10fields) = .ok none :=
  ⟨rfl, C10_missing_key_returns_none c10fields (Or.inl rfl)⟩

/-- C7: whenever the coordination record loaded under the advisory lock
carries a (truthy) persisted error, a non-read-only writer raises exactly
that error and performs no mutating operation at all — in particular none on
the shared store — regardless of the overwrite flag or the on-disk state, so
every racer observing the record fails identically. -/
theorem C7_persisted_error_propagates (dbFile : String) (force : Bool)
    (meta : CoordMetadata) (onDisk : Bool) (e : String)
    (he : meta.dbError = some e) (hne : e ≠ "") :
    checkOutfileExists dbFile false force meta onDisk = ([], some e) := by
  simp [checkOutfileExists, pyTruthyError, he, hne]

/-- Values after an ordered-dict update satisfy `P` if the old values do,
the freshly created value does, and `f` preserves `P`. -/
theorem updateA_forall {κ ν : Type} [BEq κ] (P : ν → Prop) (k : κ) (f : ν → ν) (d : ν)
    (hd : P (f d)) (hf : ∀ v, P v → P (f v)) :
    ∀ l : List (κ × ν), (∀ p ∈ l, P p.2) → ∀ p ∈ updateA k f d l, P p.2 := by
  intro l
  induction l with
  | nil =>
    intro _ p hp
    rw [updateA] at hp
    rcases List.mem_singleton.mp hp with h
    rw [h]
    exact hd
  | cons q l ih =>
    intro hl p hp
    obtain ⟨k0, v0⟩ := q
    by_cases hb : (k == k0) = true
    · rw [updateA, if_pos hb] at hp
      rcases List.mem_cons.mp hp with h | h
      · rw [h]
        exact hf v0 (hl (k0, v0) (by simp))
      · exact hl p (List.mem_cons_of_mem _ h)
    · rw [updateA, if_neg hb] at hp
      rcases List.mem_cons.mp hp with h | h
      · rw [h]
        exact hl (k0, v0) (by simp)
      · exact ih (fun q hq => hl q (List.mem_cons_of_mem _ hq)) p h

/-- Fusing a poll result into a device's series map leaves every series
non-empty. -/
theorem fuseDevice_ne_nil (ms : List (String × ℚ)) :
    ∀ dev : DeviceSeries, (∀ p ∈ dev, p.2 ≠ []) →
      ∀ p ∈ fuseDevice dev ms, p.2 ≠ [] := by
  induction ms with
  | nil =>
    intro dev h
    exact h
  | cons m ms ih =>
    intro dev h
    have hstep := updateA_forall (fun s : List ℚ => s ≠ []) m.1
      (fun s => s ++ [m.2]) [] (by simp) (by simp) dev h
    exact ih _ hstep

/-- Fusing a poll result into the data map leaves every series non-empty. -/
theorem fuseData_ne_nil (samples : List (ℤ × List (String × ℚ))) :
    ∀ d : DataMap, (∀ g ∈ d, ∀ p ∈ g.2, p.2 ≠ []) →
      ∀ g ∈ fuseData d samples, ∀ p ∈ g.2, p.2 ≠ [] := by
  induction samples with
  | nil =>
    intro d h
    exact h
  | cons s ss ih =>
    intro d h
    have hstep := updateA_forall (fun dev : DeviceSeries => ∀ p ∈ dev, p.2 ≠ []) s.1
      (fun dev => fuseDevice dev s.2) []
      (fuseDevice_ne_nil s.2 [] (by simp))
      (fun dev hdev => fuseDevice_ne_nil s.2 dev hdev) d h
    exact ih _ hstep

/-- Invariant of the profiling loop: starting from series-non-empty data,
every per-device per-metric series stays non-empty (each series is created
with its first sample and only ever appended to). -/
theorem runLoop_preserves_ne_nil (mr : ℚ) (trace : List Tick) :
    ∀ d : DataMap, (∀ g ∈ d, ∀ p ∈ g.2, p.2 ≠ []) →
      ∀ g ∈ (runLoop mr trace d).1, ∀ p ∈ g.2, p.2 ≠ [] := by
  induction trace with
  | nil =>
    intro d h
    exact h
  | cons t ts ih =>
    intro d h
    by_cases hc : loopCond mr t.elapsed = true
    · rw [runLoop, if_pos hc]
      cases hst : t.status with
      | some c =>
        by_cases hz : c ≠ 0
        · simpa [hz] using fuseData_ne_nil t.samples d h
        · simpa [hz] using fuseData_ne_nil t.samples d h
      | none => exact ih _ (fuseData_ne_nil t.samples d h)
    · rw [runLoop, if_neg hc]
      exact h

/-- All series lengths of a series-non-empty data map are positive. -/
theorem allSeriesLengths_pos (d : DataMap)
    (h : ∀ g ∈ d, ∀ p ∈ g.2, p.2 ≠ []) :
    ∀ n ∈ allSeriesLengths d, 0 < n := by
  intro n hn
  simp only [allSeriesLengths, List.mem_flatMap, List.mem_map] at hn
  obtain ⟨g, hg, m, hm, hlen⟩ := hn
  rw [← hlen]
  exact List.length_pos.mpr (h g hg m hm)

/-- C4: at the end of every capture whose data map holds at least one device
and metric, `truncate_data` returns the minimum series length `n` over every
device and metric, replaces each series by its last `n` samples (a suffix:
the oldest excess is dropped, never the newest), and afterwards every
per-device per-metric series has length exactly `n`. -/
theorem C4_truncation (mr : ℚ) (trace : List Tick)
    (hne : allSeriesLengths ((runLoop mr trace []).1) ≠ []) :
    ∃ n d',
      truncate_data ((runLoop mr trace []).1) = .ok (n, d') ∧
      (allSeriesLengths ((runLoop mr trace []).1)).min? = some n ∧
      d' = ((runLoop mr trace []).1).map
            (fun g => (g.1, g.2.map (fun m => (m.1, m.2.drop (m.2.length - n))))) ∧
      (∀ g ∈ d', ∀ m ∈ g.2, m.2.length = n) := by
  set d := (runLoop mr trace []).1 with hdd
  have hpos : ∀ k ∈ allSeriesLengths d, 0 < k :=
    allSeriesLengths_pos d (runLoop_preserves_ne_nil mr trace [] (by simp))
  obtain ⟨n, hmin⟩ : ∃ n, (allSeriesLengths d).min? = some n := by
    cases hm : (allSeriesLengths d).min? with
    | none => exact absurd (List.min?_eq_none_iff.mp hm) hne
    | some n => exact ⟨n, rfl⟩
  have hnmem : n ∈ allSeriesLengths d := List.min?_mem (fun a b => min_choice a b) hmin
  have hle : ∀ m ∈ allSeriesLengths d, n ≤ m :=
    (List.le_min?_iff (fun a b c => le_min_iff) hmin).mp (le_refl n)
  have hn0 : n ≠ 0 := (hpos n hnmem).ne'
  have htr : truncate_data d =
      .ok (n, d.map (fun g => (g.1, g.2.map (fun m => (m.1, pySliceLast n m.2))))) := by
    unfold truncate_data
    rw [hmin]
  have hdrop : d.map (fun g => (g.1, g.2.map (fun m => (m.1, pySliceLast n m.2)))) =
      d.map (fun g => (g.1, g.2.map (fun m => (m.1, m.2.drop (m.2.length - n))))) := by
    apply List.map_congr_left
    intro g _
    refine congrArg (fun x => (g.1, x)) ?_
    apply List.map_congr_left
    intro m _
    simp [pySliceLast, hn0]
  refine ⟨n, _, htr, hmin, hdrop, ?_⟩
  intro g hg m hm
  rw [hdrop] at hg
  obtain ⟨g0, hg0, rfl⟩ := List.mem_map.mp hg
  obtain ⟨m0, hm0, rfl⟩ := List.mem_map.mp hm
  have hmem : m0.2.length ∈ allSeriesLengths d := by
    simp only [allSeriesLengths, List.mem_flatMap, List.mem_map]
    exact ⟨g0, hg0, m0, hm0, rfl⟩
  simp only [List.length_drop]
  exact Nat.sub_sub_self (hle _ hmem)

/-- Witness for C4 at a concrete one-tick trace. -/
theorem C4_truncation_witness :
    allSeriesLengths ((runLoop 10 c4trace []).1) ≠ [] ∧
    (∃ n d',
      truncate_data ((runLoop 10 c4trace []).1) = .ok (n, d') ∧
      (allSeriesLengths ((runLoop 10 c4trace []).1)).min? = some n ∧
      d' = ((runLoop 10 c4trace []).1).map
            (fun g => (g.1, g.2.map (fun m => (m.1, m.2.drop (m.2.length - n))))) ∧
      (∀ g ∈ d', ∀ m ∈ g.2, m.2.length = n)) :=
  ⟨by decide, C4_truncation 10 c4trace (by decide)⟩

/-- The profiling loop raises (non-zero exit observed) exactly when the
trace decomposes into a prefix of in-time, still-running ticks followed by
an in-time tick observing a non-zero child exit. -/
theorem runLoop_raised_iff (mr : ℚ) (trace : List Tick) :
    ∀ d : DataMap, ((runLoop mr trace d).2 = .raised ↔
      ∃ pre t post, trace = pre ++ t :: post ∧
        (∀ u ∈ pre, loopCond mr u.elapsed = true ∧ u.status = none) ∧
        loopCond mr t.elapsed = true ∧ ∃ c, t.status = some c ∧ c ≠ 0) := by
  induction trace with
  | nil =>
    intro d
    constructor
    · intro h
      exact absurd h (by simp [runLoop])
    · rintro ⟨pre, t, post, heq, -⟩
      exact absurd heq (by simp)
  | cons t ts ih =>
    intro d
    by_cases hc : loopCond mr t.elapsed = true
    · cases hst : t.status with
      | some c =>
        by_cases hz : c = 0
        · subst hz
          have hstep : runLoop mr (t :: ts) d = (fuseData d t.samples, .broke) := by
            rw [runLoop, if_pos hc, hst]
            simp
          rw [hstep]
          apply iff_of_false (by simp)
          rintro ⟨pre, t', post, heq, hpre, hct', c', hst', hc'⟩
          cases pre with
          | nil =>
            have ht' : t' = t := by injection heq with h1 _; exact h1.symm
            rw [ht', hst] at hst'
            injection hst' with h
            exact hc' h.symm
          | cons u pre' =>
            have hu : u = t := by injection heq with h1 _; exact h1.symm
            have h2 := (hpre u (by simp)).2
            rw [hu, hst] at h2
            exact absurd h2 (by simp)
        · have hstep : runLoop mr (t :: ts) d = (fuseData d t.samples, .raised) := by
            rw [runLoop, if_pos hc, hst]
            simp [hz]
          rw [hstep]
          exact iff_of_true rfl ⟨[], t, ts, rfl, by simp, hc, c, hst, hz⟩
      | none =>
        have hstep : runLoop mr (t :: ts) d = runLoop mr ts (fuseData d t.samples) := by
          rw [runLoop, if_pos hc, hst]
        rw [hstep, ih (fuseData d t.samples)]
        constructor
        · rintro ⟨pre, t', post, heq, hpre, hct', hraise⟩
          refine ⟨t :: pre, t', post, by rw [heq, List.cons_append], ?_, hct', hraise⟩
          intro u hu
          rcases List.mem_cons.mp hu with h | h
          · rw [h]
            exact ⟨hc, hst⟩
          · exact hpre u h
        · rintro ⟨pre, t', post, heq, hpre, hct', hraise⟩
          cases pre with
          | nil =>
            have ht' : t' = t := by injection heq with h1 _; exact h1.symm
            obtain ⟨c', hst', -⟩ := hraise
            rw [ht', hst] at hst'
            exact absurd hst' (by simp)
          | cons u pre' =>
            have hts : ts = pre' ++ t' :: post := by
              simpa using congrArg List.tail heq
            exact ⟨pre', t', post, hts, fun v hv => hpre v (List.mem_cons_of_mem _ hv),
                   hct', hraise⟩
    · have hstep : runLoop mr (t :: ts) d = (d, .condFail t.status) := by
        rw [runLoop, if_neg hc]
      rw [hstep]
      apply iff_of_false (by simp)
      rintro ⟨pre, t', post, heq, hpre, hct', -⟩
      cases pre with
      | nil =>
        have ht' : t' = t := by injection heq with h1 _; exact h1.symm
        rw [ht'] at hct'
        exact hc hct'
      | cons u pre' =>
        have hu : u = t := by injection heq with h1 _; exact h1.symm
        have h1 := (hpre u (by simp)).1
        rw [hu] at h1
        exact hc h1

/-- With `maxRuntime ≤ 0` the loop condition is always true, so the loop
never exits through the timeout branch. -/
theorem runLoop_no_condFail (mr : ℚ) (hmr : mr ≤ 0) (trace : List Tick) :
    ∀ (d : DataMap) (st : Option ℤ), (runLoop mr trace d).2 ≠ .condFail st := by
  induction trace with
  | nil =>
    intro d st h
    exact absurd h (by simp [runLoop])
  | cons t ts ih =>
    intro d st h
    have hc : loopCond mr t.elapsed = true := by
      simp [loopCond, hmr]
    rw [runLoop, if_pos hc] at h
    cases hst : t.status with
    | some c =>
      rw [hst] at h
      by_cases hz : c = 0
      · subst hz
        simp at h
      · simp [hz] at h
    | none =>
      rw [hst] at h
      exact ih _ st h

/-- The post-loop tail of `run` never produces a workload failure: the
non-zero-exit exception can only arise inside the loop. -/
theorem runFinish_ne_workloadFailure (job : SlurmJobInfo)
    (sampT mr t0 t1 : ℚ) (cmd : String) (killed : Bool) (d : DataMap) :
    runFinish job sampT mr t0 t1 cmd killed d ≠ .workloadFailure := by
  unfold runFinish
  cases truncate_data d with
  | error e => simp
  | ok p =>
    obtain ⟨n, d'⟩ := p
    simp

/-- C6 counterexample: in a trace whose child exits with code 1 but where
that exit is first observed by the post-loop poll after `maxRuntime = 1` has
elapsed, `run` raises no error at all — it returns a complete record
(`RunResult.ok`, i.e. `io.dump` executed, with `killed = false`) even though
the supervised process exited non-zero, contradicting the claim that a
non-zero child exit always raises and suppresses the record. -/
theorem C6_counterexample :
    c6trace.getLast? = some ⟨2, [], some 1⟩ ∧
    run c6job 500 1 0 2 "sleep 1" c6trace =
      .ok false
        { job_id := 7, label := "L", hostname := "nid001", proc_id := 0,
          n_gpus := 1, gpu_ids := [0], start_time := 0, end_time := 2,
          elapsed := 2 - 0, sampling_time := 500, n_samples := 1, cmd := "sleep 1" }
        [(0, [("util", [1])])] :=
  ⟨rfl, rfl⟩

/-- C6 (amended): `run` raises the workload-failure error iff the loop
observes a non-zero child exit before the timeout cutoff (a non-zero exit
first observed after the cutoff goes undetected and a record is still
written); on a timeout with the child still observed running, the child is
killed and — provided at least one sample was collected — a complete
truncated record is written; and with `maxRuntime ≤ 0` no timeout is ever
enforced. When the workload failure is raised, no record is written
(`RunResult.workloadFailure` carries no record). -/
theorem C6_run_error_contract (job : SlurmJobInfo) (sampT mr t0 t1 : ℚ)
    (cmd : String) (trace : List Tick) :
    (run job sampT mr t0 t1 cmd trace = .workloadFailure ↔
      ∃ pre t post, trace = pre ++ t :: post ∧
        (∀ u ∈ pre, loopCond mr u.elapsed = true ∧ u.status = none) ∧
        loopCond mr t.elapsed = true ∧ ∃ c, t.status = some c ∧ c ≠ 0) ∧
    (∀ d : DataMap, runLoop mr trace [] = (d, .condFail none) →
      allSeriesLengths d ≠ [] →
      ∃ n d', truncate_data d = .ok (n, d') ∧
        run job sampT mr t0 t1 cmd trace =
          .ok true
            { job_id := job.job_id, label := job.label, hostname := job.hostname,
              proc_id := job.proc_id, n_gpus := job.gpu_ids.length,
              gpu_ids := job.gpu_ids, start_time := t0, end_time := t1,
              elapsed := t1 - t0, sampling_time := sampT, n_samples := n,
              cmd := cmd } d') ∧
    (mr ≤ 0 → ∀ (st : Option ℤ) (d : DataMap),
      runLoop mr trace [] ≠ (d, .condFail st)) := by
  refine ⟨?_, ?_, ?_⟩
  · have h1 : run job sampT mr t0 t1 cmd trace = .workloadFailure ↔
        (runLoop mr trace []).2 = .raised := by
      rcases h : runLoop mr trace [] with ⟨d, e⟩
      unfold run
      rw [h]
      cases e with
      | raised => simp
      | broke =>
        simp only
        exact iff_of_false (runFinish_ne_workloadFailure job sampT mr t0 t1 cmd false d)
          (by simp)
      | condFail st =>
        simp only
        exact iff_of_false (runFinish_ne_workloadFailure job sampT mr t0 t1 cmd st.isNone d)
          (by simp)
      | ranOut => simp
    exact h1.trans (runLoop_raised_iff mr trace [])
  · intro d hrl hne
    obtain ⟨n, hmin⟩ : ∃ n, (allSeriesLengths d).min? = some n := by
      cases hm : (allSeriesLengths d).min? with
      | none => exact absurd (List.min?_eq_none_iff.mp hm) hne
      | some n => exact ⟨n, rfl⟩
    have htr : truncate_data d =
        .ok (n, d.map (fun g => (g.1, g.2.map (fun m => (m.1, pySliceLast n m.2))))) := by
      unfold truncate_data
      rw [hmin]
    refine ⟨n, _, htr, ?_⟩
    unfold run
    rw [hrl]
    simp only [Option.isNone_none]
    unfold runFinish
    rw [htr]
  · intro hmr st d h
    exact runLoop_no_condFail mr hmr trace [] st (by rw [h])

/-- Witness for C6 at a concrete timeout trace (two ticks, child still
running when `maxRuntime = 1` is exceeded). -/
theorem C6_run_error_contract_witness :
    runLoop 1 c6wtrace [] = ([(0, [("util", [2])])], .condFail none) ∧
    allSeriesLengths [((0 : ℤ), [("util", [(2 : ℚ)])])] ≠ [] ∧
    (∃ n d', truncate_data [(0, [("util", [2])])] = .ok (n, d') ∧
      run c6job 500 1 0 5 "sleep 1" c6wtrace =
        .ok true
          { job_id := 7, label := "L", hostname := "nid001", proc_id := 0,
            n_gpus := 1, gpu_ids := [0], start_time := 0, end_time := 5,
            elapsed := 5 - 0, sampling_time := 500, n_samples := n,
            cmd := "sleep 1" } d') :=
  ⟨by decide, by decide,
   (C6_run_error_contract c6job 500 1 0 5 "sleep 1" c6wtrace).2.1
     [(0, [("util", [2])])] (by decide) (by decide)⟩

/-- Witness for C7 at a concrete coordination record carrying "boom". -/
theorem C7_persisted_error_propagates_witness :
    c7meta.dbError = some "boom" ∧
    checkOutfileExists "out.sqlite" false false c7meta true = ([], some "boom") :=
  ⟨by decide,
   C7_persisted_error_propagates "out.sqlite" false c7meta true "boom" (by decide) (by decide)⟩

/-- Inserting a fresh key into a Python dict appends it. -/
theorem pyDictInsert_not_mem (k : PyKey) (v : PyVal) (l : List (PyKey × PyVal))
    (h : k ∉ l.map Prod.fst) : pyDictInsert k v l = l ++ [(k, v)] := by
  induction l with
  | nil => rfl
  | cons p l ih =>
    obtain ⟨k0, v0⟩ := p
    have hne : (k == k0) = false := by
      rw [beq_eq_false_iff_ne]
      intro hc
      exact h (by rw [hc]; simp)
    rw [pyDictInsert]
    rw [if_neg (by rw [hne]; simp)]
    rw [ih (fun hm => h (by simp at hm ⊢; exact Or.inr hm))]
    rfl

/-- Folding dict insertions over pairwise-distinct keys appends them all. -/
theorem pyDictOfList_aux (es : List (PyKey × PyVal)) :
    ∀ acc : List (PyKey × PyVal),
      (acc.map Prod.fst ++ es.map Prod.fst).Nodup →
      es.foldl (fun a p => pyDictInsert p.1 p.2 a) acc = acc ++ es := by
  induction es with
  | nil =>
    intro acc _
    simp
  | cons p es ih =>
    intro acc hnd
    obtain ⟨k, v⟩ := p
    have hk : k ∉ acc.map Prod.fst := by
      intro hm
      rcases List.nodup_append.mp hnd with ⟨-, -, hdisj⟩
      exact hdisj hm (by simp)
    rw [List.foldl_cons]
    simp only
    rw [pyDictInsert_not_mem k v acc hk]
    rw [ih (acc ++ [(k, v)]) (by simpa [List.append_assoc] using hnd)]
    simp

/-- Building a Python dict from entries with pairwise-distinct keys is the
identity. -/
theorem pyDictOfList_eq_self (es : List (PyKey × PyVal))
    (h : (es.map Prod.fst).Nodup) : pyDictOfList es = es := by
  have := pyDictOfList_aux es [] (by simpa using h)
  simpa [pyDictOfList] using this

/-- The keys of the stringified entries are the stringified keys. -/
theorem stringifyKeysEntries_keys (es : List (PyKey × PyVal)) :
    (stringifyKeysEntries es).map Prod.fst =
      es.map (fun p => PyKey.kstr (dumpKey p.1)) := by
  induction es with
  | nil => rfl
  | cons p es ih =>
    obtain ⟨k, v⟩ := p
    simp [stringifyKeysEntries, ih]

mutual
/-- A dump/load round trip maps a collision-free Python value to its
key-stringified form. -/
theorem loadJson_dumpJson (v : PyVal) (h : distinctStrKeys v = true) :
    loadJson (dumpJson v) = stringifyKeys v :=
  match v with
  | .pnone => rfl
  | .pbool _ => rfl
  | .pint _ => rfl
  | .pfloat _ => rfl
  | .pstr _ => rfl
  | .plist xs => by
    rw [dumpJson, loadJson, stringifyKeys]
    rw [loadJsonList_dumpJsonList xs (by simpa [distinctStrKeys] using h)]
  | .pdict es => by
    rw [dumpJson, loadJson, stringifyKeys]
    rw [distinctStrKeys] at h
    simp only [Bool.and_eq_true] at h
    obtain ⟨hnd, hes⟩ := h
    rw [loadJsonFields_dumpJsonEntries es hes]
    rw [pyDictOfList_eq_self _ (by
      rw [stringifyKeysEntries_keys]
      have hinj : Function.Injective PyKey.kstr := fun a b hab => by
        injection hab
      have : es.map (fun p => PyKey.kstr (dumpKey p.1)) =
          (es.map (fun p => dumpKey p.1)).map PyKey.kstr := by
        rw [List.map_map]
        rfl
      rw [this]
      exact List.Nodup.map hinj (of_decide_eq_true hnd))]

theorem loadJsonList_dumpJsonList (xs : List PyVal)
    (h : distinctStrKeysList xs = true) :
    loadJsonList (dumpJsonList xs) = stringifyKeysList xs :=
  match xs with
  | [] => rfl
  | x :: xs => by
    rw [dumpJsonList, loadJsonList, stringifyKeysList]
    rw [distinctStrKeysList] at h
    simp only [Bool.and_eq_true] at h
    obtain ⟨hx, hxs⟩ := h
    rw [loadJson_dumpJson x hx, loadJsonList_dumpJsonList xs hxs]

theorem loadJsonFields_dumpJsonEntries (es : List (PyKey × PyVal))
    (h : distinctStrKeysEntries es = true) :
    loadJsonFields (dumpJsonEntries es) = stringifyKeysEntries es :=
  match es with
  | [] => rfl
  | (k, v) :: es => by
    rw [dumpJsonEntries, loadJsonFields, stringifyKeysEntries]
    rw [distinctStrKeysEntries] at h
    simp only [Bool.and_eq_true] at h
    obtain ⟨hv, hes⟩ := h
    rw [loadJson_dumpJson v hv, loadJsonFields_dumpJsonEntries es hes]
end

mutual
/-- Stringifying keys is the identity on values whose dict keys are already
strings. -/
theorem stringifyKeys_of_strKeyed (v : PyVal) (h : strKeyed v = true) :
    stringifyKeys v = v :=
  match v with
  | .pnone => rfl
  | .pbool _ => rfl
  | .pint _ => rfl
  | .pfloat _ => rfl
  | .pstr _ => rfl
  | .plist xs => by
    rw [stringifyKeys]
    rw [stringifyKeysList_of_strKeyed xs (by simpa [strKeyed] using h)]
  | .pdict es => by
    rw [stringifyKeys]
    rw [stringifyKeysEntries_of_strKeyed es (by simpa [strKeyed] using h)]

theorem stringifyKeysList_of_strKeyed (xs : List PyVal)
    (h : strKeyedList xs = true) : stringifyKeysList xs = xs :=
  match xs with
  | [] => rfl
  | x :: xs => by
    rw [stringifyKeysList]
    rw [strKeyedList] at h
    simp only [Bool.and_eq_true] at h
    obtain ⟨hx, hxs⟩ := h
    rw [stringifyKeys_of_strKeyed x hx, stringifyKeysList_of_strKeyed xs hxs]

theorem stringifyKeysEntries_of_strKeyed (es : List (PyKey × PyVal))
    (h : strKeyedEntries es = true) : stringifyKeysEntries es = es :=
  match es with
  | [] => rfl
  | (k, v) :: es => by
    cases k with
    | kint n =>
      exfalso
      rw [strKeyedEntries] at h
      simp at h
    | kstr s =>
      rw [strKeyedEntries] at h
      simp only [Bool.and_eq_true] at h
      obtain ⟨⟨-, hv⟩, hes⟩ := h
      rw [stringifyKeysEntries]
      rw [stringifyKeys_of_strKeyed v hv, stringifyKeysEntries_of_strKeyed es hes]
      rfl
end

/-- The metadata-keys assert always succeeds: every metadata dict has the
same fixed key set. -/
theorem sameMetadataKeys_true (records : List PerRankRecord) :
    sameMetadataKeys records = true := by
  cases records with
  | nil => rfl
  | cons r0 rest => simp [sameMetadataKeys, pyMetadataKeys]

/-- The device loop of `create_data_table` over a well-formed, non-empty
device map leaves `df` bound to the last device's DataFrame (columns and
rows). -/
theorem recordStep_eq (md : CaptureMetadata) (devs : DataMap)
    (hwf : ∀ dv ∈ devs, seriesLengthsEqual dv.2 = true) :
    ∀ carry, recordStep md devs carry =
      .ok (match devs.getLast? with
           | none => carry
           | some dv => some (dfCols dv.2, mkRows md dv.1 dv.2)) := by
  induction devs with
  | nil =>
    intro carry
    rfl
  | cons dv rest ih =>
    intro carry
    have hdv := hwf dv (by simp)
    have hrest : ∀ x ∈ rest, seriesLengthsEqual x.2 = true :=
      fun x hx => hwf x (List.mem_cons_of_mem _ hx)
    have hstep : recordStep md (dv :: rest) carry =
        recordStep md rest (some (dfCols dv.2, mkRows md dv.1 dv.2)) := by
      unfold recordStep
      rw [List.foldlM_cons]
      rw [show buildDeviceDF md dv.1 dv.2 = .ok (mkRows md dv.1 dv.2) from by
        rw [buildDeviceDF, if_pos hdv]]
      rfl
    rw [hstep, ih hrest (some (dfCols dv.2, mkRows md dv.1 dv.2))]
    cases hl : rest.getLast? with
    | none =>
      have : rest = [] := List.getLast?_eq_none_iff.mp hl
      subst this
      rfl
    | some dv' =>
      cases rest with
      | nil => cases hl
      | cons b l =>
        rw [List.getLast?_cons_cons, hl]

/-- On well-formed records with non-empty device maps whose last devices all
carry the same DataFrame columns `C`, the record loop of `create_data_table`
appends exactly each record's last-device rows and raises nothing: every
`to_sql` append's frame columns are the table's columns. -/
theorem createDataTableGo_eq (C : List String) (records : List PerRankRecord)
    (hdata : ∀ r ∈ records, r.2 ≠ [])
    (hwf : ∀ r ∈ records, ∀ dv ∈ r.2, seriesLengthsEqual dv.2 = true)
    (hcols : ∀ r ∈ records, (r.2.getLast?).map (fun dv => dfCols dv.2) = some C) :
    ∀ carry tcols acc, (tcols = none ∨ tcols = some C) →
      createDataTableGo records carry tcols acc =
        (acc ++ records.flatMap lastDeviceRows, none) := by
  induction records with
  | nil =>
    intro carry tcols acc _
    simp [createDataTableGo]
  | cons r rs ih =>
    intro carry tcols acc htc
    obtain ⟨dv, hdv⟩ : ∃ dv, r.2.getLast? = some dv := by
      cases h : r.2.getLast? with
      | none => exact absurd (List.getLast?_eq_none_iff.mp h) (hdata r (by simp))
      | some dv => exact ⟨dv, rfl⟩
    have hC : dfCols dv.2 = C := by
      have h := hcols r (by simp)
      rw [hdv] at h
      exact Option.some.inj h
    have hrs_data : ∀ x ∈ rs, x.2 ≠ [] := fun x hx => hdata x (List.mem_cons_of_mem _ hx)
    have hrs_wf : ∀ x ∈ rs, ∀ dv ∈ x.2, seriesLengthsEqual dv.2 = true :=
      fun x hx => hwf x (List.mem_cons_of_mem _ hx)
    have hrs_cols : ∀ x ∈ rs, (x.2.getLast?).map (fun dv => dfCols dv.2) = some C :=
      fun x hx => hcols x (List.mem_cons_of_mem _ hx)
    have hfind : C.find? (fun c => !C.contains c) = none := by
      rw [List.find?_eq_none]
      intro x hx
      simp [hx]
    have hrec : recordStep r.1 r.2 carry = .ok (some (C, mkRows r.1 dv.1 dv.2)) := by
      rw [recordStep_eq r.1 r.2 (hwf r (by simp)) carry, hdv]
      rw [← hC]
    have hstep : createDataTableGo (r :: rs) carry tcols acc =
        createDataTableGo rs (some (C, mkRows r.1 dv.1 dv.2)) (some C)
          (acc ++ mkRows r.1 dv.1 dv.2) := by
      rcases htc with rfl | rfl
      · rw [createDataTableGo, hrec]
      · rw [createDataTableGo, hrec]
        show (match List.find? (fun c => !C.contains c) C with
              | none => createDataTableGo rs (some (C, mkRows r.1 dv.1 dv.2)) (some C)
                  (acc ++ mkRows r.1 dv.1 dv.2)
              | some c =>
                  (acc,
                   some ("sqlite3.OperationalError: table data has no column named " ++ c))) =
          createDataTableGo rs (some (C, mkRows r.1 dv.1 dv.2)) (some C)
            (acc ++ mkRows r.1 dv.1 dv.2)
        rw [hfind]
    rw [hstep, ih hrs_data hrs_wf hrs_cols _ _ _ (Or.inr rfl)]
    rw [List.flatMap_cons, show lastDeviceRows r = mkRows r.1 dv.1 dv.2 from by
      rw [lastDeviceRows, hdv]]
    rw [List.append_assoc]

/-- `create_data_table` on well-formed records with uniform last-device
columns raises nothing and fills the table with the concatenation of each
record's last-device rows. -/
theorem create_data_table_eq (C : List String) (records : List PerRankRecord)
    (hdata : ∀ r ∈ records, r.2 ≠ [])
    (hwf : ∀ r ∈ records, ∀ dv ∈ r.2, seriesLengthsEqual dv.2 = true)
    (hcols : ∀ r ∈ records, (r.2.getLast?).map (fun dv => dfCols dv.2) = some C) :
    create_data_table records = (records.flatMap lastDeviceRows, none) := by
  rw [create_data_table, if_pos (sameMetadataKeys_true records)]
  rw [createDataTableGo_eq C records hdata hwf hcols none none [] (Or.inl rfl)]
  rw [List.nil_append]

/-- `np.median` only depends on the multiset of values. -/
theorem pyMedian_perm (l₁ l₂ : List ℚ) (h : l₁.Perm l₂) : pyMedian l₁ = pyMedian l₂ := by
  unfold pyMedian
  rw [Multiset.coe_eq_coe.mpr h]

/-- C5 counterexample: two records with the same job id and the same metric
name sets but different labels pass the code's validation, yet merging them
in the two input orders produces different `job_metadata` table contents
(the label column is copied from whichever record happens to be first), so
the merge output is not order-independent. -/
theorem C5_counterexample :
    (export_db [c5recA, c5recB]).map (fun t => t.job_metadata) ≠
      (export_db [c5recB, c5recA]).map (fun t => t.job_metadata) := by
  decide

/-- C5 (amended): merge is order-independent up to row order provided the
records additionally agree on the fields `job_metadata` copies from the
first record — label, command, and the device-0 metric name list — and on
their last devices' metric name lists (so every `to_sql` append's frame
columns match the `data` table created from the first record, making the
appends succeed), and each record has a non-empty, length-consistent device
map containing device 0: then both merges succeed, the `samples` and
`process_metadata` tables are permutations of each other, and the
`job_metadata` rows agree on every column except `hostnames`, whose joined
host list is a permutation of the other's. -/
theorem C5_merge_order_independent (l₁ l₂ : List PerRankRecord)
    (hperm : l₁.Perm l₂)
    (hne : l₁ ≠ [])
    (hjob : ∀ r ∈ l₁, ∀ r' ∈ l₁, r.1.job_id = r'.1.job_id)
    (hlabel : ∀ r ∈ l₁, ∀ r' ∈ l₁, r.1.label = r'.1.label)
    (hcmd : ∀ r ∈ l₁, ∀ r' ∈ l₁, r.1.cmd = r'.1.cmd)
    (hmet : ∀ r ∈ l₁, ∀ r' ∈ l₁,
      (r.2.lookup 0).map (fun ms => ms.map Prod.fst) =
        (r'.2.lookup 0).map (fun ms => ms.map Prod.fst))
    (hlast : ∀ r ∈ l₁, ∀ r' ∈ l₁,
      (r.2.getLast?).map (fun dv => dv.2.map Prod.fst) =
        (r'.2.getLast?).map (fun dv => dv.2.map Prod.fst))
    (hdev0 : ∀ r ∈ l₁, (r.2.lookup 0).isSome = true)
    (hdata : ∀ r ∈ l₁, r.2 ≠ [])
    (hwf : ∀ r ∈ l₁, ∀ dv ∈ r.2, seriesLengthsEqual dv.2 = true) :
    ∃ t₁ t₂, export_db l₁ = .ok t₁ ∧ export_db l₂ = .ok t₂ ∧
      t₁.samples.Perm t₂.samples ∧
      t₁.process_metadata.Perm t₂.process_metadata ∧
      t₁.job_metadata.map jobMetaNoHosts = t₂.job_metadata.map jobMetaNoHosts ∧
      (pySet (l₁.map (fun r => r.1.hostname))).Perm
        (pySet (l₂.map (fun r => r.1.hostname))) := by
  have hmem : ∀ r ∈ l₂, r ∈ l₁ := fun r hr => hperm.mem_iff.mpr hr
  cases l₁ with
  | nil => exact absurd rfl hne
  | cons a as =>
  cases l₂ with
  | nil =>
    exact absurd hperm.length_eq (by simp)
  | cons b bs =>
  have ha : a ∈ a :: as := by simp
  have hb : b ∈ a :: as := hmem b (by simp)
  have hsj1 : sameJobIds (a :: as) = true := (sameJobIds_eq_true_iff _).mpr hjob
  have hsj2 : sameJobIds (b :: bs) = true := by
    apply (sameJobIds_eq_true_iff _).mpr
    intro r hr r' hr'
    exact hjob r (hmem r hr) r' (hmem r' hr')
  obtain ⟨dvA, hdvA⟩ : ∃ dv, a.2.getLast? = some dv := by
    cases h : a.2.getLast? with
    | none => exact absurd (List.getLast?_eq_none_iff.mp h) (hdata a ha)
    | some dv => exact ⟨dv, rfl⟩
  have hcols1 : ∀ r ∈ a :: as,
      (r.2.getLast?).map (fun dv => dfCols dv.2) = some (dfCols dvA.2) := by
    intro r hr
    obtain ⟨dvR, hdvR⟩ : ∃ dv, r.2.getLast? = some dv := by
      cases h : r.2.getLast? with
      | none => exact absurd (List.getLast?_eq_none_iff.mp h) (hdata r hr)
      | some dv => exact ⟨dv, rfl⟩
    have h := hlast r hr a ha
    rw [hdvR, hdvA] at h
    have h' : dvR.2.map Prod.fst = dvA.2.map Prod.fst := by simpa using h
    rw [hdvR]
    show some (dfCols dvR.2) = some (dfCols dvA.2)
    unfold dfCols
    rw [h']
  have hcols2 : ∀ r ∈ b :: bs,
      (r.2.getLast?).map (fun dv => dfCols dv.2) = some (dfCols dvA.2) :=
    fun r hr => hcols1 r (hmem r hr)
  have hcdt1 : create_data_table (a :: as) = ((a :: as).flatMap lastDeviceRows, none) :=
    create_data_table_eq (dfCols dvA.2) _ hdata hwf hcols1
  have hcdt2 : create_data_table (b :: bs) = ((b :: bs).flatMap lastDeviceRows, none) :=
    create_data_table_eq (dfCols dvA.2) _ (fun r hr => hdata r (hmem r hr))
      (fun r hr => hwf r (hmem r hr)) hcols2
  obtain ⟨msA, hmsA⟩ := Option.isSome_iff_exists.mp (hdev0 a ha)
  obtain ⟨msB, hmsB⟩ := Option.isSome_iff_exists.mp (hdev0 b hb)
  have hjm1 : create_job_metadata_table (a :: as) =
      .ok [{ job_id := a.1.job_id, label := a.1.label,
             n_hosts := (pySet ((a :: as).map (fun r => r.1.hostname))).length,
             hostnames := ", ".intercalate (pySet ((a :: as).map (fun r => r.1.hostname))),
             n_procs := (a :: as).length,
             n_gpus := ((a :: as).map (fun r => r.1.n_gpus)).sum,
             avg_start_time := pyMedian ((a :: as).map (fun r => r.1.start_time)),
             avg_end_time := pyMedian ((a :: as).map (fun r => r.1.end_time)),
             avg_elapsed := pyMedian ((a :: as).map (fun r => r.1.elapsed)),
             metrics := ", ".intercalate (msA.map Prod.fst),
             cmd := a.1.cmd }] := by
    rw [create_job_metadata_table, hmsA]
  have hjm2 : create_job_metadata_table (b :: bs) =
      .ok [{ job_id := b.1.job_id, label := b.1.label,
             n_hosts := (pySet ((b :: bs).map (fun r => r.1.hostname))).length,
             hostnames := ", ".intercalate (pySet ((b :: bs).map (fun r => r.1.hostname))),
             n_procs := (b :: bs).length,
             n_gpus := ((b :: bs).map (fun r => r.1.n_gpus)).sum,
             avg_start_time := pyMedian ((b :: bs).map (fun r => r.1.start_time)),
             avg_end_time := pyMedian ((b :: bs).map (fun r => r.1.end_time)),
             avg_elapsed := pyMedian ((b :: bs).map (fun r => r.1.elapsed)),
             metrics := ", ".intercalate (msB.map Prod.fst),
             cmd := b.1.cmd }] := by
    rw [create_job_metadata_table, hmsB]
  have he1 : export_db (a :: as) =
      .ok ⟨(a :: as).flatMap lastDeviceRows, create_process_metadata_table (a :: as),
           [{ job_id := a.1.job_id, label := a.1.label,
              n_hosts := (pySet ((a :: as).map (fun r => r.1.hostname))).length,
              hostnames := ", ".intercalate (pySet ((a :: as).map (fun r => r.1.hostname))),
              n_procs := (a :: as).length,
              n_gpus := ((a :: as).map (fun r => r.1.n_gpus)).sum,
              avg_start_time := pyMedian ((a :: as).map (fun r => r.1.start_time)),
              avg_end_time := pyMedian ((a :: as).map (fun r => r.1.end_time)),
              avg_elapsed := pyMedian ((a :: as).map (fun r => r.1.elapsed)),
              metrics := ", ".intercalate (msA.map Prod.fst),
              cmd := a.1.cmd }]⟩ := by
    rw [export_db, if_pos hsj1, hcdt1, hjm1]
  have he2 : export_db (b :: bs) =
      .ok ⟨(b :: bs).flatMap lastDeviceRows, create_process_metadata_table (b :: bs),
           [{ job_id := b.1.job_id, label := b.1.label,
              n_hosts := (pySet ((b :: bs).map (fun r => r.1.hostname))).length,
              hostnames := ", ".intercalate (pySet ((b :: bs).map (fun r => r.1.hostname))),
              n_procs := (b :: bs).length,
              n_gpus := ((b :: bs).map (fun r => r.1.n_gpus)).sum,
              avg_start_time := pyMedian ((b :: bs).map (fun r => r.1.start_time)),
              avg_end_time := pyMedian ((b :: bs).map (fun r => r.1.end_time)),
              avg_elapsed := pyMedian ((b :: bs).map (fun r => r.1.elapsed)),
              metrics := ", ".intercalate (msB.map Prod.fst),
              cmd := b.1.cmd }]⟩ := by
    rw [export_db, if_pos hsj2, hcdt2, hjm2]
  refine ⟨_, _, he1, he2, ?_, ?_, ?_, ?_⟩
  · exact List.Perm.flatMap_right lastDeviceRows hperm
  · show (create_process_metadata_table (a :: as)).Perm
      (create_process_metadata_table (b :: bs))
    unfold create_process_metadata_table
    exact hperm.map _
  · have hhosts : ((a :: as).map (fun r => r.1.hostname)).Perm
        ((b :: bs).map (fun r => r.1.hostname)) := hperm.map _
    have hmetAB := hmet a ha b hb
    rw [hmsA, hmsB] at hmetAB
    have hmet' : msA.map Prod.fst = msB.map Prod.fst := by
      simpa using hmetAB
    have h1 : a.1.job_id = b.1.job_id := hjob a ha b hb
    have h2 : a.1.label = b.1.label := hlabel a ha b hb
    have h3 : (pySet ((a :: as).map (fun r => r.1.hostname))).length =
        (pySet ((b :: bs).map (fun r => r.1.hostname))).length := by
      unfold pySet
      exact hhosts.dedup.length_eq
    have h4 : (a :: as).length = (b :: bs).length := hperm.length_eq
    have h5 : ((a :: as).map (fun r => r.1.n_gpus)).sum =
        ((b :: bs).map (fun r => r.1.n_gpus)).sum :=
      List.Perm.sum_eq (hperm.map _)
    have h6 : pyMedian ((a :: as).map (fun r => r.1.start_time)) =
        pyMedian ((b :: bs).map (fun r => r.1.start_time)) :=
      pyMedian_perm _ _ (hperm.map _)
    have h7 : pyMedian ((a :: as).map (fun r => r.1.end_time)) =
        pyMedian ((b :: bs).map (fun r => r.1.end_time)) :=
      pyMedian_perm _ _ (hperm.map _)
    have h8 : pyMedian ((a :: as).map (fun r => r.1.elapsed)) =
        pyMedian ((b :: bs).map (fun r => r.1.elapsed)) :=
      pyMedian_perm _ _ (hperm.map _)
    have h10 : a.1.cmd = b.1.cmd := hcmd a ha b hb
    simp only [List.map_singleton, jobMetaNoHosts]
    rw [h1, h2, h3, h4, h5, h6, h7, h8, hmet', h10]
  · exact (hperm.map _).dedup

/-- Witness for the amended C5 at a concrete valid pair of records and its
swap. -/
theorem C5_merge_order_independent_witness :
    ([c5wA, c5wB] : List PerRankRecord).Perm [c5wB, c5wA] ∧
    (∃ t₁ t₂, export_db [c5wA, c5wB] = .ok t₁ ∧ export_db [c5wB, c5wA] = .ok t₂ ∧
      t₁.samples.Perm t₂.samples ∧
      t₁.process_metadata.Perm t₂.process_metadata ∧
      t₁.job_metadata.map jobMetaNoHosts = t₂.job_metadata.map jobMetaNoHosts ∧
      (pySet ([c5wA, c5wB].map (fun r => r.1.hostname))).Perm
        (pySet ([c5wB, c5wA].map (fun r => r.1.hostname)))) :=
  ⟨List.Perm.swap c5wB c5wA [],
   C5_merge_order_independent [c5wA, c5wB] [c5wB, c5wA] (List.Perm.swap c5wB c5wA [])
     (by simp) (by decide) (by decide) (by decide) (by decide) (by decide)
     (by decide) (by decide) (by decide)⟩

/-- C8 counterexample: dumping a (metadata, series-map) pair whose series
map is keyed by the int GPU id 0 and loading it back does NOT return the
original series map — the device-id key comes back as the string "0"
(JSON object keys are strings), so the round trip is not lossless. -/
theorem C8_counterexample :
    loadRecord (dumpRecord c8meta c8data) = .ok (some (c8meta, c8dataLoaded)) ∧
    c8dataLoaded ≠ c8data :=
  ⟨rfl, by simp [c8dataLoaded, c8data]⟩

/-- C8 (amended): for every (metadata, series-map) pair without stringified
key collisions, dumping to a per-rank JSON record and loading it back
returns the metadata and data with every dict key replaced by its string
form — and a value whose dict keys are already strings (such as the
metadata dict) is returned exactly; only non-string device-id keys are
altered (to their decimal string form). -/
theorem C8_roundtrip_stringifies_keys :
    (∀ metadata data : PyVal, distinctStrKeys metadata = true →
      distinctStrKeys data = true →
      loadRecord (dumpRecord metadata data) =
        .ok (some (stringifyKeys metadata, stringifyKeys data))) ∧
    (∀ v : PyVal, strKeyed v = true → stringifyKeys v = v) := by
  constructor
  · intro metadata data hm hd
    have hfields : loadJson (dumpRecord metadata data) =
        .pdict [(.kstr "metadata", stringifyKeys metadata),
                (.kstr "data", stringifyKeys data)] := by
      rw [dumpRecord, loadJson]
      rw [show loadJsonFields [("metadata", dumpJson metadata), ("data", dumpJson data)] =
            [(.kstr "metadata", loadJson (dumpJson metadata)),
             (.kstr "data", loadJson (dumpJson data))] from rfl]
      rw [loadJson_dumpJson metadata hm, loadJson_dumpJson data hd]
      rw [pyDictOfList_eq_self _ (by simp)]
    rw [loadRecord, hfields]
    rfl
  · exact stringifyKeys_of_strKeyed

/-- Witness for C8 at the concrete record with an int device-id key. -/
theorem C8_roundtrip_stringifies_keys_witness :
    distinctStrKeys c8meta = true ∧ distinctStrKeys c8data = true ∧
    strKeyed c8meta = true ∧
    loadRecord (dumpRecord c8meta c8data) =
      .ok (some (stringifyKeys c8meta, stringifyKeys c8data)) ∧
    stringifyKeys c8meta = c8meta :=
  ⟨rfl, rfl, rfl,
   C8_roundtrip_stringifies_keys.1 c8meta c8data rfl rfl,
   C8_roundtrip_stringifies_keys.2 c8meta rfl⟩

/-- The mean of a non-empty list with all values in `[lo, hi]` lies in
`[lo, hi]`. -/
theorem listMean_bounds (l : List ℚ) (hl : l ≠ []) (lo hi : ℚ)
    (h : ∀ v ∈ l, lo ≤ v ∧ v ≤ hi) : lo ≤ listMean l ∧ listMean l ≤ hi := by
  have hlen0 : l.length ≠ 0 := fun hz => hl (List.length_eq_zero.mp hz)
  have hlen : (0 : ℚ) < l.length := by
    exact_mod_cast Nat.pos_of_ne_zero hlen0
  have hsum_le : l.sum ≤ l.length • hi := List.sum_le_card_nsmul l hi (fun x hx => (h x hx).2)
  have hsum_ge : l.length • lo ≤ l.sum := List.card_nsmul_le_sum l lo (fun x hx => (h x hx).1)
  rw [nsmul_eq_mul] at hsum_le hsum_ge
  unfold listMean
  rw [if_neg hlen0]
  constructor
  · rw [le_div_iff₀ hlen]
    linarith
  · rw [div_le_iff₀ hlen]
    linarith

/-- Every cluster value comes from the series. -/
theorem clusterVals_subset (assign : ℕ → Bool) (b : Bool) (series : List ℚ) :
    ∀ v ∈ clusterVals assign b series, v ∈ series := by
  intro v hv
  simp only [clusterVals, List.mem_filterMap] at hv
  obtain ⟨p, hp, hpe⟩ := hv
  by_cases h : (assign p.1 == b) = true
  · rw [if_pos h] at hpe
    have hv2 := Option.some.inj hpe
    rw [← hv2]
    exact (List.of_mem_zip hp).2
  · rw [if_neg h] at hpe
    cases hpe

/-- If a cluster is empty, no index is assigned to its side. -/
theorem clusterVals_nil_imp (assign : ℕ → Bool) (b : Bool) (series : List ℚ)
    (h : clusterVals assign b series = []) :
    ∀ i < series.length, assign i ≠ b := by
  intro i hi hib
  have hv : (i, series.get ⟨i, hi⟩) ∈ (List.range series.length).zip series := by
    rw [← List.enum_eq_zip_range]
    apply List.mk_mem_enum_iff_getElem?.mpr
    rw [List.getElem?_eq_getElem hi]
    rfl
  have hmemC : series.get ⟨i, hi⟩ ∈ clusterVals assign b series := by
    apply List.mem_filterMap.mpr
    exact ⟨(i, series.get ⟨i, hi⟩), hv, by simp [hib]⟩
  rw [h] at hmemC
  exact absurd hmemC (List.not_mem_nil _)

/-- Low-variation series make one detection direction return an all-false
mask: with all values in `[lo, hi]` and `hi - lo < 0.15 · lo`, either both
cluster means fall within `[lo, hi]` (gap below the threshold — rejected) or
one cluster is empty (its side holds no index, so nothing is flagged). -/
theorem detectDirection_lowvar (assign : ℕ → Bool) (series : List ℚ) (lo hi : ℚ)
    (h0 : 0 ≤ lo) (hmem : ∀ v ∈ series, lo ≤ v ∧ v ≤ hi)
    (hvar : hi - lo < (3 / 20) * lo) :
    detectDirection assign series = List.replicate series.length false := by
  rcases eq_or_ne series [] with hnil | hnil
  · subst hnil
    simp [detectDirection]
  · have hlo_pos : 0 < lo := by
      rcases hex : series with _ | ⟨v, rest⟩
      · exact absurd hex hnil
      have hv := hmem v (by rw [hex]; simp)
      rcases lt_or_eq_of_le h0 with h | h
      · exact h
      · exfalso
        rw [← h] at hvar hv
        linarith [hv.1, hv.2]
    have hsubT := fun v hv => hmem v (clusterVals_subset assign true series v hv)
    have hsubF := fun v hv => hmem v (clusterVals_subset assign false series v hv)
    by_cases hTnil : clusterVals assign true series = []
    · have hall : ∀ i < series.length, assign i ≠ true :=
        clusterVals_nil_imp assign true series hTnil
      have hmT : listMean (clusterVals assign true series) = 0 := by
        rw [hTnil]
        rfl
      have hFne : clusterVals assign false series ≠ [] := by
        intro hF
        have hallF := clusterVals_nil_imp assign false series hF
        have hlen : 0 < series.length := List.length_pos.mpr hnil
        cases hb : assign 0
        · exact hallF 0 hlen hb
        · exact hall 0 hlen hb
      have hmF := listMean_bounds _ hFne lo hi hsubF
      have hmFpos : 0 < listMean (clusterVals assign false series) :=
        lt_of_lt_of_le hlo_pos hmF.1
      unfold detectDirection
      rw [hmT]
      rw [if_neg (by
        rw [max_eq_right hmFpos.le, min_eq_left hmFpos.le]
        intro hcon
        nlinarith [hmFpos])]
      apply List.eq_replicate_iff.mpr
      refine ⟨by simp, ?_⟩
      intro b hb
      obtain ⟨i, hi, rfl⟩ := List.mem_map.mp hb
      rw [if_pos hmFpos.le]
      cases hbi : assign i
      · rfl
      · exact absurd hbi (hall i (List.mem_range.mp hi))
    · by_cases hFnil : clusterVals assign false series = []
      · have hall : ∀ i < series.length, assign i ≠ false :=
          clusterVals_nil_imp assign false series hFnil
        have hmF : listMean (clusterVals assign false series) = 0 := by
          rw [hFnil]
          rfl
        have hmT := listMean_bounds _ hTnil lo hi hsubT
        have hmTpos : 0 < listMean (clusterVals assign true series) :=
          lt_of_lt_of_le hlo_pos hmT.1
        unfold detectDirection
        rw [hmF]
        rw [if_neg (by
          rw [max_eq_left hmTpos.le, min_eq_right hmTpos.le]
          intro hcon
          nlinarith [hmTpos])]
        apply List.eq_replicate_iff.mpr
        refine ⟨by simp, ?_⟩
        intro b hb
        obtain ⟨i, hi, rfl⟩ := List.mem_map.mp hb
        rw [if_neg (by
          intro hle
          exact absurd (le_antisymm hle hmTpos.le) hmTpos.ne')]
        cases hbi : assign i
        · exact absurd hbi (hall i (List.mem_range.mp hi))
        · rfl
      · have hmT := listMean_bounds _ hTnil lo hi hsubT
        have hmF := listMean_bounds _ hFnil lo hi hsubF
        unfold detectDirection
        rw [if_pos (by
          have h1 : max (listMean (clusterVals assign true series))
              (listMean (clusterVals assign false series)) ≤ hi := max_le hmT.2 hmF.2
          have h2 : lo ≤ min (listMean (clusterVals assign true series))
              (listMean (clusterVals assign false series)) := le_min hmT.1 hmF.1
          have h3 : lo ≤ max (listMean (clusterVals assign true series))
              (listMean (clusterVals assign false series)) :=
            le_trans h2 min_le_max
          nlinarith)]

/-- C9: the cleanser (modelled from the spec, the implementation being
absent from src/) returns an all-false mask whenever the relative gap
between the two cluster means is below the 0.15 threshold; in particular,
for every detection mode, a uniformly low-variation series — all values in a
band `[lo, hi]` with `hi - lo < 0.15 · lo` — yields an all-false mask, so no
sample is flagged. -/
theorem C9_gap_threshold_rejection :
    (∀ (assign : ℕ → Bool) (series : List ℚ),
      max (listMean (clusterVals assign true series))
          (listMean (clusterVals assign false series)) -
        min (listMean (clusterVals assign true series))
          (listMean (clusterVals assign false series)) <
        (3 / 20) * max (listMean (clusterVals assign true series))
          (listMean (clusterVals assign false series)) →
      detectDirection assign series = List.replicate series.length false) ∧
    (∀ (mode : DetectMode) (assignL assignT : ℕ → Bool) (series : List ℚ) (lo hi : ℚ),
      0 ≤ lo → (∀ v ∈ series, lo ≤ v ∧ v ≤ hi) → hi - lo < (3 / 20) * lo →
      detectOutlierSamples mode assignL assignT series =
        List.replicate series.length false) := by
  constructor
  · intro assign series h
    unfold detectDirection
    rw [if_pos h]
  · intro mode assignL assignT series lo hi h0 hmem hvar
    have hrev : ∀ v ∈ series.reverse, lo ≤ v ∧ v ≤ hi := by
      intro v hv
      exact hmem v (List.mem_reverse.mp hv)
    have hL := detectDirection_lowvar assignL series lo hi h0 hmem hvar
    have hT := detectDirection_lowvar assignT series.reverse lo hi h0 hrev hvar
    cases mode with
    | leading => exact hL
    | trailing =>
      rw [detectOutlierSamples, hT, List.length_reverse, List.reverse_replicate]
    | all =>
      rw [detectOutlierSamples, hL, hT, List.length_reverse, List.reverse_replicate,
          List.zipWith_replicate]
      simp
    | nodetect => rfl

/-- Witness for C9 at a concrete low-variation series (all values 2/5). -/
theorem C9_gap_threshold_rejection_witness :
    ((2 : ℚ) / 5 - 2 / 5 < (3 / 20) * (2 / 5)) ∧
    detectOutlierSamples .leading (fun _ => false) (fun _ => false) c9series =
      List.replicate c9series.length false :=
  ⟨by norm_num,
   C9_gap_threshold_rejection.2 .leading (fun _ => false) (fun _ => false) c9series
     (2 / 5) (2 / 5) (by norm_num)
     (by
       intro v hv
       simp only [c9series, List.mem_cons, List.not_mem_nil, or_false, or_self] at hv
       rw [hv]
       exact ⟨le_refl _, le_refl _⟩)
     (by norm_num)⟩

end AGI
